import Mathlib

/-!
Shallow embedding of the strided-view metadata engine in
src/aten/src/THC/THCTensor.cpp.

A `Storage` is the reference-counted buffer record; a `THCTensor` is the
per-view metadata record (shape, stride, offset, storage reference).
Machine pointers are modelled by `Option` references carrying a numeric
identity (`id`), which stands for the pointer value: pointer equality in
the source becomes identity equality here.  Dimensionality `nDimension`
is represented by the length of the `size` list; the C arrays are only
ever read below `nDimension`, so lists of exactly that length are an
observationally faithful model.  Fallible paths return the mutated record
together with an `Option Err`, because the source mutates the object in
place and THError/THArgCheck abort by throwing: the first component is
the state of the view when the call returns or aborts.
-/

/-- Buffer record underlying one or more views.  `size` is the capacity in
elements, `scalar_type` the element-type tag, `id` models the pointer
identity of the allocation. -/
structure Storage where
  id : Nat
  size : Int
  scalar_type : Nat
deriving Repr, DecidableEq

/-- The per-view metadata record (struct _THCTensor): shape, stride, element
offset into the storage, and the storage reference.  `id` models the address
of the record itself (the source compares tensor pointers in THCTensor_set). -/
structure THCTensor where
  id : Nat
  size : List Int
  stride : List Int
  storageOffset : Int
  storage : Option Storage
deriving Repr, DecidableEq

/-- Abnormal outcomes of the engine: recoverable argument errors
(THArgCheck, tagged with the argument number), fatal invariant violations
(THError), allocation failure propagated from the storage grow request, and
a dereference of an absent (null) storage pointer. -/
inductive Err where
  | argCheck : Nat → Err
  | fatal : Err
  | allocFailure : Err
  | nullDeref : Err
deriving Repr, DecidableEq

/-- Modelled from the spec: `THCStorage_new` lives in THCStorage.cpp, which is
not part of the source subset.  Spec section 3: a Storage is "created empty
(capacity 0)" with the given scalar element type.  `freshId` is the identity
of the new allocation, distinct from every live one by caller convention. -/
def THCStorage_new (scalar_type : Nat) (freshId : Nat) : Storage :=
  { id := freshId, size := 0, scalar_type := scalar_type }

/-- Modelled from the spec: `THCStorage_resize` lives in THCStorage.cpp, which
is not part of the source subset.  Spec section 4.1: the grow request
"reallocates the buffer to at least the requested capacity ... fails with an
allocation error if memory cannot be obtained".  The allocation backend is
modelled by the flag `growOk`: when it is false the grow request fails. -/
def THCStorage_resize (growOk : Bool) (st : Storage) (newSize : Int) :
    Except Unit Storage :=
  if growOk then .ok { st with size := newSize } else .error ()

/-- Pointer comparison `self->storage != storage` of the source, on the
`Option Storage` model: both null compare equal, two present storages compare
by allocation identity. -/
def sameStorage : Option Storage → Option Storage → Bool
  | none, none => true
  | some a, some b => a.id == b.id
  | _, _ => false

/-- Count of leading strictly positive entries of the requested size array:
the first scan loop of THCTensor_resizeNd increments `nDimension_` for each
`size[d] > 0` and breaks at the first non-positive entry. -/
def leadingPos : List Int → Nat
  | [] => 0
  | s :: rest => if 0 < s then leadingPos rest + 1 else 0

/-- The stride clause of the no-op scan in THCTensor_resizeNd, at absolute
dimension `d`: `stride && (stride[d] >= 0) && (stride[d] != self->stride[d])`. -/
def strideMismatch (self : THCTensor) (strides : Option (List Int)) (d : Nat) : Bool :=
  match strides with
  | none => false
  | some st => decide (0 ≤ st.getD d 0) && decide (st.getD d 0 ≠ self.stride.getD d 0)

/-- The scan loop of THCTensor_resizeNd (lines 64-78) viewed as the predicate
"hascorrectsize was not cleared": the list argument is the remaining suffix of
the requested sizes, `d` the absolute dimension index.  The loop stops at the
first non-positive requested size. -/
def scanOk (self : THCTensor) (strides : Option (List Int)) :
    List Int → Nat → Bool
  | [], _ => true
  | s :: rest, d =>
    if 0 < s then
      (!(decide (d < self.size.length) && decide (s ≠ self.size.getD d 0))) &&
      (!(decide (d < self.size.length) && strideMismatch self strides d)) &&
      scanOk self strides rest (d + 1)
    else true

/-- Full no-op test of THCTensor_resizeNd: the scan left `hascorrectsize` set
and the effective dimensionality matches the current one (line 81). -/
def hascorrectsize (self : THCTensor) (sizes : List Int)
    (strides : Option (List Int)) : Bool :=
  scanOk self strides sizes 0 && decide (leadingPos sizes = self.size.length)

/-- The stride-computation loop of THCTensor_resizeNd (lines 97-108), walking
from the last dimension to the first.  Each pair carries the requested size
and the explicit stride entry (`none` when no stride array was supplied); an
explicit entry is used verbatim when non-negative, otherwise the default
contiguous stride `size[d+1]*stride[d+1]` (or 1 at the last dimension) is
computed from the already-written later entries. -/
def computeStrides : List (Int × Option Int) → List Int
  | [] => []
  | (_, e) :: rest =>
    let tail := computeStrides rest
    let dflt : Int :=
      match rest with
      | [] => 1
      | (s2, _) :: _ => s2 * tail.headD 1
    let str : Int :=
      match e with
      | some x => if 0 ≤ x then x else dflt
      | none => dflt
    str :: tail

/-- Explicit stride entries passed to the stride-computation loop: entry `d`
is `stride[d]` of the supplied stride array, absent when no array was given.
Reads use default 0 exactly as the no-op scan does, so both loops read the
same value for the same index. -/
def mkExps (strides : Option (List Int)) (nD : Nat) : List (Option Int) :=
  (List.range nD).map (fun d => Option.map (fun st => st.getD d 0) strides)

/-- New stride array written by THCTensor_resizeNd for effective
dimensionality `nD`. -/
def newStrides (sizes : List Int) (strides : Option (List Int)) (nD : Nat) :
    List Int :=
  computeStrides ((sizes.take nD).zip (mkExps strides nD))

/-- The `totalSize` accumulator of THCTensor_resizeNd: starts at 1 and adds
`(size[d]-1)*stride[d]` for every dimension. -/
def totalSizeOf (szs strs : List Int) : Int :=
  1 + (szs.zip strs).foldr (fun p acc => (p.1 - 1) * p.2 + acc) 0

/-- THCTensor_resizeNd (lines 57-122).  Returns the view as mutated when the
call returns or aborts, together with the abnormal outcome if any.  The
storage-creation branch of the source reads `self->storage->scalar_type`
under `if(!self->storage)` (line 115), a dereference of the null storage
pointer, modelled by the `Err.nullDeref` outcome. -/
def THCTensor_resizeNd (growOk : Bool) (self : THCTensor) (sizes : List Int)
    (strides : Option (List Int)) : THCTensor × Option Err :=
  let nD := leadingPos sizes
  if hascorrectsize self sizes strides then (self, none)
  else if 0 < nD then
    let szs := sizes.take nD
    let strs := newStrides sizes strides nD
    let totalSize := totalSizeOf szs strs
    let self1 := { self with size := szs, stride := strs }
    if 0 < totalSize + self.storageOffset then
      match self.storage with
      | none => (self1, some Err.nullDeref)
      | some st =>
        if st.size < totalSize + self.storageOffset then
          match THCStorage_resize growOk st (totalSize + self.storageOffset) with
          | .ok st2 => ({ self1 with storage := some st2 }, none)
          | .error _ => (self1, some Err.allocFailure)
        else (self1, none)
    else (self1, none)
  else ({ self with size := [], stride := [] }, none)

/-- THCTensor_resizeAs (lines 37-55): no-op when dimensionality and all sizes
already match `src`, otherwise resizeNd with the sizes of `src` and no
explicit stride. -/
def THCTensor_resizeAs (growOk : Bool) (self src : THCTensor) :
    THCTensor × Option Err :=
  if self.size = src.size then (self, none)
  else THCTensor_resizeNd growOk self src.size none

/-- THCTensor_setStorageNd (lines 136-160).  The retain/release reference
count traffic on storages is not part of the tracked state; what is modelled
is which storage the view references afterwards.  When the storage argument
is absent, the source allocates a replacement reading the scalar type off
`self->storage`, which at that point was just released (a stale read); its
scalar-type field is still the old value in this model. -/
def THCTensor_setStorageNd (growOk : Bool) (freshId : Nat) (self : THCTensor)
    (storage : Option Storage) (storageOffset : Int) (sizes : List Int)
    (strides : Option (List Int)) : THCTensor × Option Err :=
  let self1 :=
    if sameStorage self.storage storage then self
    else
      match storage with
      | some st => { self with storage := some st }
      | none =>
        match self.storage with
        | some old => { self with storage := some (THCStorage_new old.scalar_type freshId) }
        | none => self
  if storageOffset < 0 then (self1, some Err.fatal)
  else
    let self2 := { self1 with storageOffset := storageOffset }
    THCTensor_resizeNd growOk self2 sizes strides

/-- THCTensor_set (lines 124-134): when the two records are distinct objects,
rebind `self` onto the storage, offset, sizes and strides of `src`. -/
def THCTensor_set (growOk : Bool) (freshId : Nat) (self src : THCTensor) :
    THCTensor × Option Err :=
  if self.id = src.id then (self, none)
  else
    THCTensor_setStorageNd growOk freshId self src.storage src.storageOffset
      src.size (some src.stride)

/-- THCTensor_squeeze1d (lines 163-183).  `srcOpt = none` models the null
src pointer defaulted to `self`.  The shift loop is rendered literally: the
new arrays have one fewer slot, entries below the squeezed dimension are kept
and entries at or above it are pulled from one slot further right. -/
def THCTensor_squeeze1d (growOk : Bool) (freshId : Nat) (self : THCTensor)
    (srcOpt : Option THCTensor) (dimension : Nat) : THCTensor × Option Err :=
  let src := srcOpt.getD self
  if ¬ dimension < src.size.length then (self, some (Err.argCheck 3))
  else
    match THCTensor_set growOk freshId self src with
    | (self1, some e) => (self1, some e)
    | (self1, none) =>
      if src.size.getD dimension 0 = 1 ∧ 1 < src.size.length then
        let n1 := self1.size.length
        let sz := (List.range (n1 - 1)).map
          (fun d => if dimension ≤ d then self1.size.getD (d + 1) 0 else self1.size.getD d 0)
        let st := (List.range (n1 - 1)).map
          (fun d => if dimension ≤ d then self1.stride.getD (d + 1) 0 else self1.stride.getD d 0)
        ({ self1 with size := sz, stride := st }, none)
      else (self1, none)

/-- THCTensor_unsqueeze1d (lines 185-210).  The arrays grow by one slot; the
downward shift loop copies entries above the new dimension from one slot to
the left, leaving the slot at `dimension` holding its pre-shift value exactly
as in the source, after which the new stride and the size 1 are written into
that slot. -/
def THCTensor_unsqueeze1d (growOk : Bool) (freshId : Nat) (self : THCTensor)
    (srcOpt : Option THCTensor) (dimension : Nat) : THCTensor × Option Err :=
  let src := srcOpt.getD self
  if ¬ dimension ≤ src.size.length then (self, some (Err.argCheck 3))
  else if ¬ 0 < src.size.length then (self, some (Err.argCheck 3))
  else
    match THCTensor_set growOk freshId self src with
    | (self1, some e) => (self1, some e)
    | (self1, none) =>
      let n1 := self1.size.length + 1
      let sz1 := (List.range n1).map
        (fun d => if dimension < d then self1.size.getD (d - 1) 0 else self1.size.getD d 0)
      let st1 := (List.range n1).map
        (fun d => if dimension < d then self1.stride.getD (d - 1) 0 else self1.stride.getD d 0)
      let sdim : Int :=
        if dimension + 1 < n1 then sz1.getD (dimension + 1) 0 * st1.getD (dimension + 1) 0
        else 1
      ({ self1 with size := sz1.set dimension 1, stride := st1.set dimension sdim }, none)

/-- The loop of THCTensor_isContiguous, processing (size, stride) pairs from
the last dimension to the first with the expected-stride accumulator `z`. -/
def contigGo : List (Int × Int) → Int → Bool
  | [], _ => true
  | (s, st) :: rest, z =>
    if s ≠ 1 then
      if st == z then contigGo rest (z * s) else false
    else contigGo rest z

/-- THCTensor_isContiguous (lines 212-226). -/
def THCTensor_isContiguous (self : THCTensor) : Bool :=
  contigGo ((self.size.zip self.stride).reverse) 1

/-- THCTensor_nElement (lines 238-249): 0 for a dimensionless view, otherwise
the product of all sizes accumulated left to right. -/
def THCTensor_nElement (self : THCTensor) : Int :=
  if self.size.length = 0 then 0
  else self.size.foldl (fun acc s => acc * s) 1

/-- THCTensor_nDimension (line 10). -/
def THCTensor_nDimension (self : THCTensor) : Nat :=
  self.size.length

/-- The reachable-view shape invariant: every stored size entry is strictly
positive. -/
def sizesPos (V : THCTensor) : Prop := ∀ s ∈ V.size, 0 < s

instance (V : THCTensor) : Decidable (sizesPos V) :=
  inferInstanceAs (Decidable (∀ s ∈ V.size, 0 < s))

/-- Variant of `contigGo` used in proofs: it also returns the final value of
the accumulator `z` on success. -/
def contigAux : List (Int × Int) → Int → Option Int
  | [], z => some z
  | (s, st) :: rest, z =>
    if s ≠ 1 then
      if st == z then contigAux rest (z * s) else none
    else contigAux rest z

/-- Suffix products of a size list: entry `d` is the product of the entries
after `d`.  This is what the default-stride computation produces when no
explicit stride array is supplied. -/
def suffixProds : List Int → List Int
  | [] => []
  | _ :: rest => rest.prod :: suffixProds rest

/-- Rank-1 view with a non-contiguous stride over a capacity-4 storage. -/
def exNoncontig : THCTensor :=
  { id := 1, size := [2], stride := [5], storageOffset := 0,
    storage := some { id := 1, size := 4, scalar_type := 0 } }

/-- Rank-1 view over a capacity-4 storage with contiguous stride. -/
def exSmall : THCTensor :=
  { id := 1, size := [2], stride := [1], storageOffset := 0,
    storage := some { id := 1, size := 4, scalar_type := 0 } }

/-- Dimensionless view with no storage attached. -/
def exFresh : THCTensor :=
  { id := 2, size := [], stride := [], storageOffset := 0, storage := none }

/-- Rank-2 view with size 1 on axis 0 and a non-default stride there. -/
def exSqueeze : THCTensor :=
  { id := 3, size := [1, 3], stride := [7, 1], storageOffset := 0,
    storage := some { id := 2, size := 3, scalar_type := 0 } }

/-- Rank-1 view used as the destination of an assign. -/
def exDst : THCTensor :=
  { id := 4, size := [2], stride := [1], storageOffset := 0,
    storage := some { id := 3, size := 2, scalar_type := 0 } }

/-- Rank-2 well-formed view used as the source of an assign. -/
def exSrc : THCTensor :=
  { id := 5, size := [4, 3], stride := [3, 1], storageOffset := 0,
    storage := some { id := 4, size := 12, scalar_type := 0 } }

/-! Helper lemmas about the scan and stride computation. -/

theorem leadingPos_le (l : List Int) : leadingPos l ≤ l.length := by
  induction l with
  | nil => simp [leadingPos]
  | cons s rest ih =>
    simp only [leadingPos, List.length_cons]
    split
    · omega
    · omega

theorem leadingPos_getD_pos (l : List Int) :
    ∀ j, j < leadingPos l → 0 < l.getD j 0 := by
  induction l with
  | nil => intro j hj; simp [leadingPos] at hj
  | cons s rest ih =>
    intro j hj
    simp only [leadingPos] at hj
    split at hj
    · cases j with
      | zero => simpa using ‹0 < s›
      | succ j2 => simpa using ih j2 (by omega)
    · omega

theorem leadingPos_eq_length (l : List Int) (h : ∀ s ∈ l, 0 < s) :
    leadingPos l = l.length := by
  induction l with
  | nil => simp [leadingPos]
  | cons s rest ih =>
    simp only [leadingPos, List.length_cons]
    rw [if_pos (h s (by simp))]
    rw [ih (fun x hx => h x (by simp [hx]))]

theorem length_computeStrides (l : List (Int × Option Int)) :
    (computeStrides l).length = l.length := by
  induction l with
  | nil => simp [computeStrides]
  | cons p rest ih => simp [computeStrides, ih]

theorem computeStrides_getD_explicit (l : List (Int × Option Int)) :
    ∀ j x, j < l.length → (l.getD j (0, none)).2 = some x → 0 ≤ x →
      (computeStrides l).getD j 0 = x := by
  induction l with
  | nil => intro j x hj; simp at hj
  | cons p rest ih =>
    obtain ⟨ps, pe⟩ := p
    intro j x hj he hx
    cases j with
    | zero =>
      simp only [List.getD_cons_zero] at he
      subst he
      simp only [computeStrides, List.getD_cons_zero]
      rw [if_pos hx]
    | succ j2 =>
      simp only [List.getD_cons_succ] at he
      simp only [computeStrides, List.getD_cons_succ]
      exact ih j2 x (by simpa using hj) he hx

theorem scanOk_iff (self : THCTensor) (strs : Option (List Int)) :
    ∀ (l : List Int) (d : Nat),
      scanOk self strs l d = true ↔
        ∀ j, j < leadingPos l →
          (d + j < self.size.length → l.getD j 0 = self.size.getD (d + j) 0) ∧
          (d + j < self.size.length → strideMismatch self strs (d + j) = false) := by
  intro l
  induction l with
  | nil => intro d; simp [scanOk, leadingPos]
  | cons s rest ih =>
    intro d
    simp only [scanOk, leadingPos]
    by_cases hs : 0 < s
    · rw [if_pos hs, if_pos hs]
      have e1 : ∀ j2 : Nat, d + 1 + j2 = d + (j2 + 1) := fun j2 => by omega
      simp only [Bool.and_eq_true, Bool.not_eq_true', Bool.and_eq_false_iff,
        decide_eq_false_iff_not, decide_eq_true_eq, ih (d + 1)]
      constructor
      · rintro ⟨⟨h1, h2⟩, h3⟩ j hj
        cases j with
        | zero =>
          rw [Nat.add_zero]
          refine ⟨fun hd => ?_, fun hd => ?_⟩
          · rcases h1 with h | h
            · omega
            · simpa using h
          · rcases h2 with h | h
            · omega
            · simpa using h
        | succ j2 =>
          have h4 := h3 j2 (by omega)
          refine ⟨fun hd => ?_, fun hd => ?_⟩
          · rw [List.getD_cons_succ, ← e1 j2]
            exact h4.1 (by omega)
          · rw [← e1 j2]
            exact h4.2 (by omega)
      · intro h
        refine ⟨⟨?_, ?_⟩, ?_⟩
        · by_cases hd : d < self.size.length
          · right
            have h5 := (h 0 (by omega)).1 (by rw [Nat.add_zero]; exact hd)
            rw [Nat.add_zero] at h5
            simpa using h5
          · left; omega
        · by_cases hd : d < self.size.length
          · right
            have h5 := (h 0 (by omega)).2 (by rw [Nat.add_zero]; exact hd)
            rw [Nat.add_zero] at h5
            exact h5
          · left; omega
        · intro j2 hj2
          have h4 := h (j2 + 1) (by omega)
          refine ⟨fun hd => ?_, fun hd => ?_⟩
          · have h5 := h4.1 (by rw [← e1 j2] at *; omega)
            rw [List.getD_cons_succ] at h5
            rw [e1 j2]
            exact h5
          · have h5 := h4.2 (by rw [← e1 j2] at *; omega)
            rw [e1 j2]
            exact h5
    · rw [if_neg hs, if_neg hs]
      simp

/-! Master lemmas characterizing THCTensor_resizeNd. -/

theorem resizeNd_correct_eq (g : Bool) (self : THCTensor) (szs : List Int)
    (strs : Option (List Int)) (h : hascorrectsize self szs strs = true) :
    THCTensor_resizeNd g self szs strs = (self, none) := by
  unfold THCTensor_resizeNd
  rw [if_pos h]

theorem correct_size_eq (self : THCTensor) (szs : List Int)
    (strs : Option (List Int)) (h : hascorrectsize self szs strs = true) :
    self.size = szs.take (leadingPos szs) := by
  have h1 := (Bool.and_eq_true _ _).mp h
  have hlen : leadingPos szs = self.size.length := by simpa using h1.2
  have hscan := (scanOk_iff self strs szs 0).mp h1.1
  have hle := leadingPos_le szs
  apply List.ext_getElem
  · simp only [List.length_take]
    omega
  · intro i h1i h2i
    have hi : i < leadingPos szs := by
      simp only [List.length_take] at h2i
      omega
    have h3 := (hscan i hi).1 (by omega)
    rw [Nat.zero_add] at h3
    rw [List.getD_eq_getElem szs 0 (by omega),
      List.getD_eq_getElem self.size 0 (by omega)] at h3
    simp only [List.getElem_take]
    exact h3.symm

theorem resizeNd_not_correct_fst (g : Bool) (self : THCTensor) (szs : List Int)
    (strs : Option (List Int)) (h : hascorrectsize self szs strs = false) :
    ((THCTensor_resizeNd g self szs strs).1).size = szs.take (leadingPos szs) ∧
    ((THCTensor_resizeNd g self szs strs).1).stride = newStrides szs strs (leadingPos szs) ∧
    ((THCTensor_resizeNd g self szs strs).1).storageOffset = self.storageOffset ∧
    ((THCTensor_resizeNd g self szs strs).1).id = self.id ∧
    ((THCTensor_resizeNd g self szs strs).1).storage.map Storage.id
      = self.storage.map Storage.id := by
  simp only [THCTensor_resizeNd, h, Bool.false_eq_true, if_false]
  by_cases hn : 0 < leadingPos szs
  · rw [if_pos hn]
    split
    · split
      · simp
      · split
        · split
          · rename_i st2 heq2
            simp only [THCStorage_resize] at heq2
            split at heq2
            · cases heq2
              simp_all
            · cases heq2
          · simp
        · simp
    · simp
  · rw [if_neg hn]
    have h0 : leadingPos szs = 0 := by omega
    simp [h0, newStrides, mkExps, computeStrides]

theorem resizeNd_fst_size (g : Bool) (self : THCTensor) (szs : List Int)
    (strs : Option (List Int)) :
    ((THCTensor_resizeNd g self szs strs).1).size = szs.take (leadingPos szs) := by
  by_cases h : hascorrectsize self szs strs = true
  · rw [resizeNd_correct_eq g self szs strs h]
    exact correct_size_eq self szs strs h
  · exact (resizeNd_not_correct_fst g self szs strs (by simpa using h)).1

theorem resizeNd_fst_storageOffset (g : Bool) (self : THCTensor) (szs : List Int)
    (strs : Option (List Int)) :
    ((THCTensor_resizeNd g self szs strs).1).storageOffset = self.storageOffset := by
  by_cases h : hascorrectsize self szs strs = true
  · rw [resizeNd_correct_eq g self szs strs h]
  · exact (resizeNd_not_correct_fst g self szs strs (by simpa using h)).2.2.1

theorem resizeNd_fst_id (g : Bool) (self : THCTensor) (szs : List Int)
    (strs : Option (List Int)) :
    ((THCTensor_resizeNd g self szs strs).1).id = self.id := by
  by_cases h : hascorrectsize self szs strs = true
  · rw [resizeNd_correct_eq g self szs strs h]
  · exact (resizeNd_not_correct_fst g self szs strs (by simpa using h)).2.2.2.1

theorem resizeNd_storage_id (g : Bool) (self : THCTensor) (szs : List Int)
    (strs : Option (List Int)) :
    ((THCTensor_resizeNd g self szs strs).1).storage.map Storage.id
      = self.storage.map Storage.id := by
  by_cases h : hascorrectsize self szs strs = true
  · rw [resizeNd_correct_eq g self szs strs h]
  · exact (resizeNd_not_correct_fst g self szs strs (by simpa using h)).2.2.2.2

theorem length_mkExps (strs : Option (List Int)) (nD : Nat) :
    (mkExps strs nD).length = nD := by
  simp [mkExps]

theorem length_newStrides (szs : List Int) (strs : Option (List Int)) (nD : Nat)
    (h : nD ≤ szs.length) : (newStrides szs strs nD).length = nD := by
  simp only [newStrides, length_computeStrides, List.length_zip,
    List.length_take, length_mkExps]
  omega

theorem newStrides_getD_explicit (szs : List Int) (st : List Int) (nD j : Nat)
    (hj : j < nD) (hle : nD ≤ szs.length) (hx : 0 ≤ st.getD j 0) :
    (newStrides szs (some st) nD).getD j 0 = st.getD j 0 := by
  have hlen : j < ((szs.take nD).zip (mkExps (some st) nD)).length := by
    simp only [List.length_zip, List.length_take, length_mkExps]
    omega
  apply computeStrides_getD_explicit
  · simpa using hlen
  · rw [List.getD_eq_getElem _ (0, none) hlen]
    rw [List.getElem_zip]
    simp [mkExps]
  · exact hx

theorem resizeNd_correct_after (g : Bool) (self : THCTensor) (szs : List Int)
    (strs : Option (List Int)) :
    hascorrectsize ((THCTensor_resizeNd g self szs strs).1) szs strs = true := by
  have hle := leadingPos_le szs
  have hsize := resizeNd_fst_size g self szs strs
  have hlen : ((THCTensor_resizeNd g self szs strs).1).size.length = leadingPos szs := by
    rw [hsize]
    simp only [List.length_take]
    omega
  unfold hascorrectsize
  rw [Bool.and_eq_true]
  constructor
  · rw [scanOk_iff]
    intro j hj
    simp only [Nat.zero_add]
    constructor
    · intro hd
      rw [hsize]
      rw [List.getD_eq_getElem szs 0 (by omega),
        List.getD_eq_getElem _ 0 (by simp only [List.length_take]; omega)]
      simp [List.getElem_take]
    · intro hd
      cases strs with
      | none => simp [strideMismatch]
      | some st =>
        simp only [strideMismatch, Bool.and_eq_false_iff]
        by_cases hx : 0 ≤ st.getD j 0
        · right
          simp only [decide_eq_false_iff_not, not_not]
          by_cases hc : hascorrectsize self szs (some st) = true
          · rw [resizeNd_correct_eq g self szs (some st) hc]
            have h1 := (Bool.and_eq_true _ _).mp hc
            have hlp : leadingPos szs = self.size.length := by simpa using h1.2
            have hscan := (scanOk_iff self (some st) szs 0).mp h1.1
            have h5 := (hscan j hj).2 (by omega)
            simp only [Nat.zero_add, strideMismatch, Bool.and_eq_false_iff,
              decide_eq_false_iff_not] at h5
            rcases h5 with h6 | h6
            · exact absurd hx h6
            · exact not_not.mp h6
          · have hcf : hascorrectsize self szs (some st) = false := by simpa using hc
            have hstr := (resizeNd_not_correct_fst g self szs (some st) hcf).2.1
            rw [hstr]
            exact (newStrides_getD_explicit szs st (leadingPos szs) j hj hle hx).symm
        · left
          simpa using hx
  · rw [hlen]
    simp

/-- C6: calling resizeNd a second time with the same size and stride
arguments is detected by the no-op scan and returns without touching the
view: the state after the second call (shape, stride, storage offset and
storage, hence Storage capacity) is exactly the state after the first call,
and the second call reports no error. -/
theorem resizeNd_idempotent (g : Bool) (self : THCTensor) (szs : List Int)
    (strs : Option (List Int)) :
    THCTensor_resizeNd g ((THCTensor_resizeNd g self szs strs).1) szs strs
      = ((THCTensor_resizeNd g self szs strs).1, none) :=
  resizeNd_correct_eq g _ szs strs (resizeNd_correct_after g self szs strs)

/-! Contiguity of the default strides. -/

theorem contigAux_append (l1 l2 : List (Int × Int)) (z : Int) :
    contigAux (l1 ++ l2) z = (contigAux l1 z).bind (fun w => contigAux l2 w) := by
  induction l1 generalizing z with
  | nil => simp [contigAux]
  | cons p rest ih =>
    obtain ⟨s, st⟩ := p
    simp only [List.cons_append, contigAux]
    by_cases hs : s ≠ 1
    · rw [if_pos hs, if_pos hs]
      by_cases hst : (st == z) = true
      · rw [if_pos hst, if_pos hst]
        exact ih _
      · rw [if_neg hst, if_neg hst]
        simp
    · rw [if_neg hs, if_neg hs]
      exact ih _

theorem contigGo_eq_isSome (l : List (Int × Int)) (z : Int) :
    contigGo l z = (contigAux l z).isSome := by
  induction l generalizing z with
  | nil => simp [contigGo, contigAux]
  | cons p rest ih =>
    obtain ⟨s, st⟩ := p
    simp only [contigGo, contigAux]
    by_cases hs : s ≠ 1
    · rw [if_pos hs, if_pos hs]
      by_cases hst : (st == z) = true
      · rw [if_pos hst, if_pos hst]
        exact ih _
      · rw [if_neg hst, if_neg hst]
        simp
    · rw [if_neg hs, if_neg hs]
      exact ih _

theorem suffixProds_length (l : List Int) : (suffixProds l).length = l.length := by
  induction l with
  | nil => simp [suffixProds]
  | cons s rest ih => simp [suffixProds, ih]

theorem computeStrides_cons_none (a : Int) (L : List (Int × Option Int)) :
    computeStrides ((a, none) :: L) =
      (match L with
       | [] => 1
       | (s2, _) :: _ => s2 * (computeStrides L).headD 1) :: computeStrides L := by
  rfl

theorem computeStrides_none_eq_suffixProds (l : List Int) :
    computeStrides (l.zip (List.replicate l.length none)) = suffixProds l := by
  induction l with
  | nil => rfl
  | cons s rest ih =>
    have hstep : (s :: rest).zip (List.replicate (s :: rest).length none)
        = (s, (none : Option Int)) :: rest.zip (List.replicate rest.length none) := by
      simp [List.replicate_succ]
    rw [hstep, computeStrides_cons_none, ih]
    cases rest with
    | nil => simp [suffixProds]
    | cons r rs =>
      have hstep2 : (r :: rs).zip (List.replicate (r :: rs).length none)
          = (r, (none : Option Int)) :: rs.zip (List.replicate rs.length none) := by
        simp [List.replicate_succ]
      rw [hstep2]
      simp [suffixProds, List.prod_cons]

theorem contigAux_suffixProds (l : List Int) :
    contigAux ((l.zip (suffixProds l)).reverse) 1 = some l.prod := by
  induction l with
  | nil => simp [contigAux]
  | cons s rest ih =>
    simp only [suffixProds, List.zip_cons_cons, List.reverse_cons,
      contigAux_append, ih, Option.some_bind]
    by_cases hs : s ≠ 1
    · simp only [contigAux, if_pos hs, beq_self_eq_true, if_pos, List.prod_cons]
      rw [mul_comm]
    · have hs1 : s = 1 := not_not.mp hs
      simp [contigAux, hs1, List.prod_cons]

/-- C3: the geometry written by resizeNd truncates at the first non-positive
requested size: the resulting dimensionality is the count of leading strictly
positive entries of the requested size array and the resulting size array is
that prefix; in particular requested size [5, 0, 2] always produces
dimensionality 1 with final size array [5]. -/
theorem resizeNd_effective_dimensionality (g : Bool) (self : THCTensor)
    (sizes : List Int) (strides : Option (List Int)) :
    ((THCTensor_resizeNd g self sizes strides).1).size.length = leadingPos sizes ∧
    ((THCTensor_resizeNd g self sizes strides).1).size = sizes.take (leadingPos sizes) ∧
    ((THCTensor_resizeNd g self [5, 0, 2] strides).1).size = [5] := by
  have h1 := resizeNd_fst_size g self sizes strides
  have h2 := resizeNd_fst_size g self [5, 0, 2] strides
  refine ⟨?_, h1, ?_⟩
  · rw [h1]
    have := leadingPos_le sizes
    simp only [List.length_take]
    omega
  · rw [h2]
    decide

/-- C4 counterexample: a resize that the no-op scan detects returns without
recomputing strides, so a view whose existing stride is non-contiguous stays
non-contiguous after resizeNd with no explicit stride: the claim fails for
the view with size [2] and stride [5]. -/
theorem resizeNd_noop_preserves_noncontiguous :
    (THCTensor_resizeNd true exNoncontig [2] none).1 = exNoncontig ∧
    THCTensor_isContiguous (THCTensor_resizeNd true exNoncontig [2] none).1 = false := by
  decide

/-- C4 (amended): a resizeNd call with no explicit stride produces a
contiguous view whenever the call is not detected as a no-op (when the no-op
scan fails the strides are recomputed by the default contiguous rule); a
detected no-op preserves the existing, possibly non-contiguous, strides. -/
theorem resizeNd_default_stride_contiguous (g : Bool) (V : THCTensor)
    (szs : List Int) (h : hascorrectsize V szs none = false) :
    THCTensor_isContiguous (THCTensor_resizeNd g V szs none).1 = true := by
  have hsize := (resizeNd_not_correct_fst g V szs none h).1
  have hstr := (resizeNd_not_correct_fst g V szs none h).2.1
  unfold THCTensor_isContiguous
  rw [hsize, hstr]
  have hle := leadingPos_le szs
  have hrepl : mkExps none (leadingPos szs) = List.replicate (leadingPos szs) none := by
    simp [mkExps]
  have htake : (szs.take (leadingPos szs)).length = leadingPos szs := by
    simp only [List.length_take]
    omega
  rw [newStrides, hrepl]
  set L := szs.take (leadingPos szs) with hL
  rw [← htake, computeStrides_none_eq_suffixProds L]
  rw [contigGo_eq_isSome, contigAux_suffixProds]
  rfl

/-- C4 witness: a concrete non-no-op resize with no explicit stride, checked
contiguous through the amended theorem. -/
theorem resizeNd_default_stride_contiguous_witness :
    hascorrectsize exSmall [4, 3] none = false ∧
    THCTensor_isContiguous (THCTensor_resizeNd true exSmall [4, 3] none).1 = true :=
  ⟨by decide, resizeNd_default_stride_contiguous true exSmall [4, 3] (by decide)⟩

theorem resizeNd_allocFail_storage (g : Bool) (self : THCTensor) (szs : List Int)
    (strs : Option (List Int))
    (h : (THCTensor_resizeNd g self szs strs).2 = some Err.allocFailure) :
    ((THCTensor_resizeNd g self szs strs).1).storage = self.storage := by
  by_cases hc : hascorrectsize self szs strs = true
  · rw [resizeNd_correct_eq g self szs strs hc] at h
    simp at h
  · have hcf : hascorrectsize self szs strs = false := by simpa using hc
    revert h
    simp only [THCTensor_resizeNd, hcf, Bool.false_eq_true, if_false]
    by_cases hn : 0 < leadingPos szs
    · rw [if_pos hn]
      split
      · split
        · simp
        · split
          · split
            · simp
            · simp
          · simp
      · simp
    · rw [if_neg hn]
      simp

/-- C1 counterexample: a grow request that fails with an allocation error
surfaces the error, but the view's prior state is not left unmodified: the
size array has already been overwritten with the new geometry when the error
is reported. -/
theorem resizeNd_allocFailure_mutates_geometry :
    (THCTensor_resizeNd false exSmall [3, 3] none).2 = some Err.allocFailure ∧
    (THCTensor_resizeNd false exSmall [3, 3] none).1.size ≠ exSmall.size := by
  decide

/-- C1 (amended): when the storage grow triggered by resizeNd fails with an
allocation error, the error is surfaced to the caller and the Storage
reference and its capacity are untouched, but the view's geometry has already
been committed at that point: size, stride and dimensionality hold the
requested new geometry (the geometry is written before the grow is attempted,
not after it succeeds). -/
theorem resizeNd_allocFailure_state (g : Bool) (self : THCTensor)
    (szs : List Int) (strs : Option (List Int))
    (h : (THCTensor_resizeNd g self szs strs).2 = some Err.allocFailure) :
    ((THCTensor_resizeNd g self szs strs).1).storage = self.storage ∧
    ((THCTensor_resizeNd g self szs strs).1).storageOffset = self.storageOffset ∧
    ((THCTensor_resizeNd g self szs strs).1).size = szs.take (leadingPos szs) ∧
    ((THCTensor_resizeNd g self szs strs).1).stride
      = newStrides szs strs (leadingPos szs) := by
  have hc : hascorrectsize self szs strs = false := by
    by_contra hcc
    rw [resizeNd_correct_eq g self szs strs (by simpa using hcc)] at h
    simp at h
  exact ⟨resizeNd_allocFail_storage g self szs strs h,
    (resizeNd_not_correct_fst g self szs strs hc).2.2.1,
    (resizeNd_not_correct_fst g self szs strs hc).1,
    (resizeNd_not_correct_fst g self szs strs hc).2.1⟩

/-- C1 witness: a concrete failing grow, with the Storage reference and
capacity unchanged as the amended claim states. -/
theorem resizeNd_allocFailure_state_witness :
    (THCTensor_resizeNd false exSmall [3, 3] none).2 = some Err.allocFailure ∧
    (THCTensor_resizeNd false exSmall [3, 3] none).1.storage = exSmall.storage :=
  ⟨by decide, (resizeNd_allocFailure_state false exSmall [3, 3] none (by decide)).1⟩

/-- C2: evaluation at the failing input: a view with no storage, resized to
[4, 3], reaches the storage-creation branch of resizeNd, which reads
scalar_type through the absent storage reference (line 115 of the source);
the embedded code reports the null dereference and no storage is created,
contradicting the claim that this branch never dereferences a null Storage. -/
theorem resizeNd_missing_storage_null_deref :
    (THCTensor_resizeNd true exFresh [4, 3] none).2 = some Err.nullDeref ∧
    (THCTensor_resizeNd true exFresh [4, 3] none).1.storage = none := by
  decide

/-- C8: elementCount is zero exactly when the view is dimensionless or some
size entry is zero, and in the non-degenerate case it is the product of all
size entries. -/
theorem nElement_eq_zero_iff (V : THCTensor) :
    (THCTensor_nElement V = 0 ↔
      V.size.length = 0 ∨ ∃ d, d < V.size.length ∧ V.size.getD d 1 = 0) ∧
    THCTensor_nElement V = (if V.size.length = 0 then 0 else V.size.prod) := by
  have hfold : V.size.foldl (fun acc s => acc * s) 1 = V.size.prod := by
    rw [List.prod_eq_foldl]
  constructor
  · unfold THCTensor_nElement
    by_cases h0 : V.size.length = 0
    · simp [h0]
    · rw [if_neg h0, hfold]
      rw [List.prod_eq_zero_iff]
      constructor
      · intro hmem
        rw [List.mem_iff_getElem] at hmem
        obtain ⟨n, hn, he⟩ := hmem
        exact Or.inr ⟨n, hn, by rw [List.getD_eq_getElem V.size 1 hn]; exact he⟩
      · rintro (h | ⟨d, hd, he⟩)
        · exact absurd h h0
        · rw [List.getD_eq_getElem V.size 1 hd] at he
          rw [List.mem_iff_getElem]
          exact ⟨d, hd, he⟩
  · unfold THCTensor_nElement
    by_cases h0 : V.size.length = 0
    · simp [h0]
    · rw [if_neg h0, if_neg h0, hfold]

/-! Squeeze and unsqueeze. -/

theorem set_self_eq (g : Bool) (fid : Nat) (V : THCTensor) :
    THCTensor_set g fid V V = (V, none) := by
  simp [THCTensor_set]

theorem getD_range_shiftLeft_eq_eraseIdx (l : List Int) (m axis : Nat)
    (hm : m = l.length) (hax : axis < l.length) :
    (List.range (m - 1)).map
        (fun d => if axis ≤ d then l.getD (d + 1) 0 else l.getD d 0)
      = l.eraseIdx axis := by
  subst hm
  apply List.ext_getElem
  · simp [List.length_eraseIdx, hax]
  · intro i h1 h2
    simp only [List.getElem_map, List.getElem_range]
    have hi : i < l.length - 1 := by simpa using h1
    by_cases hcase : axis ≤ i
    · rw [if_pos hcase]
      rw [List.getElem_eraseIdx_of_ge l axis i h2 hcase]
      rw [List.getD_eq_getElem l 0 (by omega)]
    · rw [if_neg hcase]
      rw [List.getElem_eraseIdx_of_lt l axis i h2 (by omega)]
      rw [List.getD_eq_getElem l 0 (by omega)]

theorem squeeze1d_self_squeezes (g : Bool) (fid : Nat) (V : THCTensor) (axis : Nat)
    (hax : axis < V.size.length) (hwf : V.stride.length = V.size.length)
    (h1 : V.size.getD axis 0 = 1) (hn : 1 < V.size.length) :
    THCTensor_squeeze1d g fid V none axis
      = ({ V with size := V.size.eraseIdx axis,
                  stride := V.stride.eraseIdx axis }, none) := by
  simp only [THCTensor_squeeze1d, Option.getD_none, set_self_eq]
  rw [if_neg (not_not_intro hax), if_pos ⟨h1, hn⟩]
  rw [getD_range_shiftLeft_eq_eraseIdx V.size V.size.length axis rfl hax,
    getD_range_shiftLeft_eq_eraseIdx V.stride V.size.length axis hwf.symm (by omega)]

theorem squeeze1d_self_noop (g : Bool) (fid : Nat) (V : THCTensor) (axis : Nat)
    (hax : axis < V.size.length)
    (hnot : ¬ (V.size.getD axis 0 = 1 ∧ 1 < V.size.length)) :
    THCTensor_squeeze1d g fid V none axis = (V, none) := by
  simp only [THCTensor_squeeze1d, Option.getD_none, set_self_eq]
  rw [if_neg (not_not_intro hax), if_neg hnot]

/-- C7: with a valid axis, squeezeAxis removes the axis (shifting the later
dimensions left in both size and stride and decrementing the dimensionality)
exactly when the size at that axis is 1 and the view has more than one
dimension; in every other case, including a rank-1 view of size 1, the view
is left unchanged, so a view is never squeezed below rank 1. -/
theorem squeeze1d_spec (g : Bool) (fid : Nat) (V : THCTensor) (axis : Nat)
    (hax : axis < V.size.length) (hwf : V.stride.length = V.size.length) :
    if V.size.getD axis 0 = 1 ∧ 1 < V.size.length then
      (THCTensor_squeeze1d g fid V none axis).1.size = V.size.eraseIdx axis ∧
      (THCTensor_squeeze1d g fid V none axis).1.stride = V.stride.eraseIdx axis ∧
      (THCTensor_squeeze1d g fid V none axis).1.size.length = V.size.length - 1
    else (THCTensor_squeeze1d g fid V none axis).1 = V := by
  by_cases hsq : V.size.getD axis 0 = 1 ∧ 1 < V.size.length
  · rw [if_pos hsq, squeeze1d_self_squeezes g fid V axis hax hwf hsq.1 hsq.2]
    refine ⟨rfl, rfl, ?_⟩
    simp [List.length_eraseIdx, hax]
  · rw [if_neg hsq, squeeze1d_self_noop g fid V axis hax hsq]

/-- C7 witness: the rank-2 view with size [1, 3] squeezed at axis 0, through
the theorem at a concrete input. -/
theorem squeeze1d_spec_witness :
    if exSqueeze.size.getD 0 0 = 1 ∧ 1 < exSqueeze.size.length then
      (THCTensor_squeeze1d true 9 exSqueeze none 0).1.size = exSqueeze.size.eraseIdx 0 ∧
      (THCTensor_squeeze1d true 9 exSqueeze none 0).1.stride = exSqueeze.stride.eraseIdx 0 ∧
      (THCTensor_squeeze1d true 9 exSqueeze none 0).1.size.length = exSqueeze.size.length - 1
    else (THCTensor_squeeze1d true 9 exSqueeze none 0).1 = exSqueeze :=
  squeeze1d_spec true 9 exSqueeze 0 (by decide) (by decide)

theorem unsqueeze1d_self_eq (g : Bool) (fid : Nat) (W : THCTensor) (axis : Nat)
    (hle : axis ≤ W.size.length) (hpos : 0 < W.size.length) :
    THCTensor_unsqueeze1d g fid W none axis =
      ({ W with
          size := ((List.range (W.size.length + 1)).map
            (fun d => if axis < d then W.size.getD (d - 1) 0 else W.size.getD d 0)).set axis 1,
          stride := ((List.range (W.size.length + 1)).map
            (fun d => if axis < d then W.stride.getD (d - 1) 0 else W.stride.getD d 0)).set axis
              (if axis < W.size.length
               then W.size.getD axis 0 * W.stride.getD axis 0 else 1) }, none) := by
  simp only [THCTensor_unsqueeze1d, Option.getD_none, set_self_eq]
  rw [if_neg (not_not_intro hle), if_neg (not_not_intro hpos)]
  have hsd : (if axis + 1 < W.size.length + 1
      then ((List.range (W.size.length + 1)).map
            (fun d => if axis < d then W.size.getD (d - 1) 0 else W.size.getD d 0)).getD (axis + 1) 0
         * ((List.range (W.size.length + 1)).map
            (fun d => if axis < d then W.stride.getD (d - 1) 0 else W.stride.getD d 0)).getD (axis + 1) 0
      else 1)
      = (if axis < W.size.length then W.size.getD axis 0 * W.stride.getD axis 0 else 1) := by
    by_cases hc : axis < W.size.length
    · rw [if_pos (by omega), if_pos hc]
      rw [List.getD_eq_getElem _ 0 (by simp; omega), List.getD_eq_getElem _ 0 (by simp; omega)]
      simp only [List.getElem_map, List.getElem_range]
      rw [if_pos (by omega), if_pos (by omega)]
      simp
    · rw [if_neg (by omega), if_neg hc]
  rw [hsd]

theorem shiftRight_map_set (l : List Int) (m axis : Nat) (a : Int)
    (hm : m = l.length) (hax : axis ≤ l.length) :
    (((List.range (m + 1)).map
        (fun d => if axis < d then l.getD (d - 1) 0 else l.getD d 0)).set axis a)
      = l.take axis ++ a :: l.drop axis := by
  subst hm
  apply List.ext_getElem?
  intro n
  rw [List.getElem?_set]
  simp only [List.length_map, List.length_range]
  by_cases hna : axis = n
  · subst hna
    rw [if_pos rfl, if_pos (by omega)]
    rw [List.getElem?_append_right (by simp only [List.length_take]; omega)]
    have h0 : axis - (l.take axis).length = 0 := by
      simp only [List.length_take]
      omega
    rw [h0, List.getElem?_cons_zero]
  · rw [if_neg hna]
    by_cases hn : n < l.length + 1
    · rw [List.getElem?_map, List.getElem?_range hn]
      by_cases hlt : n < axis
      · rw [List.getElem?_append_left (by simp only [List.length_take]; omega)]
        rw [List.getElem?_take_of_lt hlt]
        simp only [Option.map_some']
        rw [if_neg (by omega)]
        rw [List.getD_eq_getElem l 0 (by omega),
          List.getElem?_eq_getElem (by omega : n < l.length)]
      · have hgt : axis < n := by omega
        rw [List.getElem?_append_right (by simp only [List.length_take]; omega)]
        have hk : n - (l.take axis).length = (n - axis - 1) + 1 := by
          simp only [List.length_take]
          omega
        rw [hk, List.getElem?_cons_succ, List.getElem?_drop]
        have hk2 : axis + (n - axis - 1) = n - 1 := by omega
        rw [hk2]
        simp only [Option.map_some']
        rw [if_pos hgt]
        rw [List.getD_eq_getElem l 0 (by omega),
          List.getElem?_eq_getElem (by omega : n - 1 < l.length)]
    · have hL : ((List.range (l.length + 1)).map
          (fun d => if axis < d then l.getD (d - 1) 0 else l.getD d 0)).length ≤ n := by
        simp only [List.length_map, List.length_range]
        omega
      have hR : (l.take axis ++ a :: l.drop axis).length ≤ n := by
        simp only [List.length_append, List.length_take, List.length_cons,
          List.length_drop]
        omega
      rw [List.getElem?_eq_none hL, List.getElem?_eq_none hR]

/-- C5 counterexample: squeezing the size-1 axis 0 of the view with size
[1, 3] and stride [7, 1] and unsqueezing at the same axis yields stride
[3, 1]: the original stride entry 7 at the squeezed axis is not restored,
because unsqueeze recomputes that stride from the following dimension. -/
theorem squeeze_unsqueeze_stride_not_restored :
    exSqueeze.size.getD 0 0 = 1 ∧ 1 < exSqueeze.size.length ∧
    (THCTensor_unsqueeze1d true 9 (THCTensor_squeeze1d true 9 exSqueeze none 0).1 none 0).1.stride
      ≠ exSqueeze.stride := by
  decide

/-- C5 (amended): for a view with size 1 at the given axis and more than one
dimension, squeezeAxis followed by unsqueezeAxis at the same axis reproduces
the size array exactly and the stride array at every position other than the
axis; the stride at the axis itself is recomputed as size[axis+1]*stride[axis+1]
(or 1 when the axis is the last dimension), not restored to its original
value. -/
theorem squeeze_unsqueeze_roundtrip (g g2 : Bool) (fid fid2 : Nat)
    (V : THCTensor) (axis : Nat)
    (hax : axis < V.size.length) (hwf : V.stride.length = V.size.length)
    (h1 : V.size.getD axis 0 = 1) (hn : 1 < V.size.length) :
    ((THCTensor_unsqueeze1d g2 fid2 (THCTensor_squeeze1d g fid V none axis).1 none axis).1).size
      = V.size ∧
    ((THCTensor_unsqueeze1d g2 fid2 (THCTensor_squeeze1d g fid V none axis).1 none axis).1).stride
      = V.stride.set axis (if axis + 1 < V.size.length
          then V.size.getD (axis + 1) 0 * V.stride.getD (axis + 1) 0 else 1) := by
  have hE : (V.size.eraseIdx axis).length = V.size.length - 1 := by
    simp [List.length_eraseIdx, hax]
  have hF : (V.stride.eraseIdx axis).length = V.size.length - 1 := by
    simp [List.length_eraseIdx, hwf, hax]
  rw [squeeze1d_self_squeezes g fid V axis hax hwf h1 hn]
  rw [unsqueeze1d_self_eq g2 fid2 _ axis
    (by show axis ≤ (V.size.eraseIdx axis).length; rw [hE]; omega)
    (by show 0 < (V.size.eraseIdx axis).length; rw [hE]; omega)]
  dsimp only
  constructor
  · rw [shiftRight_map_set (V.size.eraseIdx axis) (V.size.eraseIdx axis).length axis 1
      rfl (by rw [hE]; omega)]
    rw [List.eraseIdx_eq_take_drop_succ]
    rw [List.take_left' (by simp only [List.length_take]; omega),
      List.drop_left' (by simp only [List.length_take]; omega)]
    have hgax : V.size[axis] = 1 := by
      rw [← List.getD_eq_getElem V.size 0 hax]
      exact h1
    conv_rhs => rw [← List.take_append_drop axis V.size,
      List.drop_eq_getElem_cons hax, hgax]
  · have hh : axis < (V.size.eraseIdx axis).length ∨ ¬ axis + 1 < V.size.length := by
      by_cases hc : axis + 1 < V.size.length
      · exact Or.inl (by rw [hE]; omega)
      · exact Or.inr hc
    have hval : (if axis < (V.size.eraseIdx axis).length
        then (V.size.eraseIdx axis).getD axis 0 * (V.stride.eraseIdx axis).getD axis 0
        else 1)
        = (if axis + 1 < V.size.length
        then V.size.getD (axis + 1) 0 * V.stride.getD (axis + 1) 0 else 1) := by
      by_cases hc : axis + 1 < V.size.length
      · have hh1 : axis < (V.size.eraseIdx axis).length := by rw [hE]; omega
        have hh2 : axis < (V.stride.eraseIdx axis).length := by rw [hF]; omega
        rw [if_pos hh1, if_pos hc]
        have e1 : (V.size.eraseIdx axis).getD axis 0 = V.size.getD (axis + 1) 0 := by
          rw [List.getD_eq_getElem _ 0 hh1,
            List.getElem_eraseIdx_of_ge V.size axis axis hh1 (Nat.le_refl axis),
            List.getD_eq_getElem V.size 0 (by omega)]
        have e2 : (V.stride.eraseIdx axis).getD axis 0 = V.stride.getD (axis + 1) 0 := by
          rw [List.getD_eq_getElem _ 0 hh2,
            List.getElem_eraseIdx_of_ge V.stride axis axis hh2 (Nat.le_refl axis),
            List.getD_eq_getElem V.stride 0 (by omega)]
        rw [e1, e2]
      · rw [if_neg (by rw [hE]; omega), if_neg hc]
    rw [hval]
    rw [shiftRight_map_set (V.stride.eraseIdx axis) (V.size.eraseIdx axis).length axis _
      (by rw [hE, hF]) (by rw [hF]; omega)]
    rw [List.set_eq_take_append_cons_drop]
    rw [if_pos (by rw [hwf]; omega : axis < V.stride.length)]
    rw [List.eraseIdx_eq_take_drop_succ]
    rw [List.take_left' (by simp only [List.length_take]; rw [hwf]; omega),
      List.drop_left' (by simp only [List.length_take]; rw [hwf]; omega)]

/-- C5 witness: the concrete roundtrip on the view with size [1, 3] and
stride [7, 1] at axis 0, through the amended theorem. -/
theorem squeeze_unsqueeze_roundtrip_witness :
    (THCTensor_unsqueeze1d true 9 (THCTensor_squeeze1d true 9 exSqueeze none 0).1 none 0).1.size
      = exSqueeze.size ∧
    (THCTensor_unsqueeze1d true 9 (THCTensor_squeeze1d true 9 exSqueeze none 0).1 none 0).1.stride
      = exSqueeze.stride.set 0 (if 0 + 1 < exSqueeze.size.length
          then exSqueeze.size.getD (0 + 1) 0 * exSqueeze.stride.getD (0 + 1) 0 else 1) :=
  squeeze_unsqueeze_roundtrip true true 9 9 exSqueeze 0 (by decide) (by decide)
    (by decide) (by decide)

/-! Storage rebinding and aliasing. -/

theorem sameStorage_iff_map_id (a b : Option Storage) :
    sameStorage a b = true ↔ a.map Storage.id = b.map Storage.id := by
  cases a <;> cases b <;> simp [sameStorage]

theorem setStorageNd_eq (g : Bool) (fid : Nat) (self : THCTensor) (st : Storage)
    (off : Int) (szs : List Int) (strs : Option (List Int)) (hoff : ¬ off < 0) :
    ∃ B : THCTensor, B.size = self.size ∧ B.stride = self.stride ∧
      B.storageOffset = off ∧ sameStorage B.storage (some st) = true ∧
      THCTensor_setStorageNd g fid self (some st) off szs strs
        = THCTensor_resizeNd g B szs strs := by
  simp only [THCTensor_setStorageNd]
  rw [if_neg hoff]
  by_cases hs : sameStorage self.storage (some st) = true
  · rw [if_pos hs]
    exact ⟨{ self with storageOffset := off }, rfl, rfl, rfl, hs, rfl⟩
  · rw [if_neg hs]
    refine ⟨{ self with storage := some st, storageOffset := off },
      rfl, rfl, rfl, ?_, rfl⟩
    simp [sameStorage]

/-- C9 counterexample: assigning a storage-less source view onto a view that
has a Storage does not make the two views share a Storage: the destination
receives a freshly allocated empty Storage (through the defective rebind
branch) while the source still has none, so the Storage identities differ
even though size, stride and offset agree. -/
theorem set_absent_storage_identity :
    exDst.id ≠ exFresh.id ∧
    (THCTensor_set true 7 exDst exFresh).1.size = exFresh.size ∧
    (THCTensor_set true 7 exDst exFresh).1.storageOffset = exFresh.storageOffset ∧
    sameStorage (THCTensor_set true 7 exDst exFresh).1.storage exFresh.storage = false := by
  decide

/-- C9 (amended): for distinct well-formed views, when the source view has a
Storage attached, strictly positive sizes, non-negative strides, matching
stride and size array lengths, and a non-negative storage offset, assign
makes the destination report exactly the size array, stride array and
storage offset of the source and reference the same Storage. -/
theorem set_aliases_src (g : Bool) (fid : Nat) (self src : THCTensor)
    (hid : self.id ≠ src.id)
    (hwfself : self.stride.length = self.size.length)
    (hwfsrc : src.stride.length = src.size.length)
    (hpos : ∀ s ∈ src.size, 0 < s)
    (hstr : ∀ t ∈ src.stride, 0 ≤ t)
    (hoff : 0 ≤ src.storageOffset)
    (hstor : src.storage.isSome = true) :
    ((THCTensor_set g fid self src).1).size = src.size ∧
    ((THCTensor_set g fid self src).1).stride = src.stride ∧
    ((THCTensor_set g fid self src).1).storageOffset = src.storageOffset ∧
    sameStorage ((THCTensor_set g fid self src).1).storage src.storage = true := by
  obtain ⟨st, hst⟩ := Option.isSome_iff_exists.mp hstor
  simp only [THCTensor_set, if_neg hid]
  rw [hst]
  obtain ⟨B, hB1, hB2, hB3, hB4, hB5⟩ :=
    setStorageNd_eq g fid self st src.storageOffset src.size (some src.stride)
      (by omega)
  rw [hB5]
  have hlp : leadingPos src.size = src.size.length := leadingPos_eq_length _ hpos
  have hmem_str : ∀ j, j < src.stride.length → 0 ≤ src.stride.getD j 0 := by
    intro j hj
    rw [List.getD_eq_getElem src.stride 0 hj]
    exact hstr _ (List.getElem_mem hj)
  refine ⟨?_, ?_, ?_, ?_⟩
  · rw [resizeNd_fst_size, hlp, List.take_length]
  · by_cases hc : hascorrectsize B src.size (some src.stride) = true
    · rw [resizeNd_correct_eq g B src.size (some src.stride) hc]
      dsimp only
      have h1 := (Bool.and_eq_true _ _).mp hc
      have hlen0 : leadingPos src.size = B.size.length := by simpa using h1.2
      have hscan := (scanOk_iff B (some src.stride) src.size 0).mp h1.1
      apply List.ext_getElem
      · rw [hB2, hwfself, ← hB1, ← hlen0, hlp, ← hwfsrc]
      · intro i h1i h2i
        have hi : i < src.size.length := by omega
        have h5 := (hscan i (by omega)).2 (by omega)
        simp only [Nat.zero_add, strideMismatch, Bool.and_eq_false_iff,
          decide_eq_false_iff_not] at h5
        rcases h5 with h6 | h6
        · exact absurd (hmem_str i (by omega)) h6
        · have h7 := not_not.mp h6
          rw [List.getD_eq_getElem src.stride 0 (by omega),
            List.getD_eq_getElem B.stride 0 (by omega)] at h7
          exact h7.symm
    · have hcf : hascorrectsize B src.size (some src.stride) = false := by
        simpa using hc
      rw [(resizeNd_not_correct_fst g B src.size (some src.stride) hcf).2.1, hlp]
      apply List.ext_getElem
      · rw [length_newStrides src.size (some src.stride) src.size.length
          (Nat.le_refl _), ← hwfsrc]
      · intro i h1i h2i
        have hi : i < src.size.length := by omega
        rw [← List.getD_eq_getElem
          (newStrides src.size (some src.stride) src.size.length) 0 h1i]
        rw [newStrides_getD_explicit src.size src.stride src.size.length i hi
          (Nat.le_refl _) (hmem_str i (by omega))]
        rw [List.getD_eq_getElem src.stride 0 h2i]
  · rw [resizeNd_fst_storageOffset]
    exact hB3
  · rw [sameStorage_iff_map_id, resizeNd_storage_id]
    exact (sameStorage_iff_map_id _ _).mp hB4

/-- C9 witness: assigning a well-formed rank-2 source onto a rank-1
destination, through the amended theorem at a concrete input. -/
theorem set_aliases_src_witness :
    (THCTensor_set true 7 exDst exSrc).1.size = exSrc.size ∧
    (THCTensor_set true 7 exDst exSrc).1.stride = exSrc.stride ∧
    (THCTensor_set true 7 exDst exSrc).1.storageOffset = exSrc.storageOffset ∧
    sameStorage (THCTensor_set true 7 exDst exSrc).1.storage exSrc.storage = true :=
  set_aliases_src true 7 exDst exSrc (by decide) (by decide) (by decide)
    (by decide) (by decide) (by decide) (by decide)

/-! Preservation of the positive-sizes invariant. -/

theorem sizesPos_resizeNd (g : Bool) (self : THCTensor) (szs : List Int)
    (strs : Option (List Int)) :
    sizesPos ((THCTensor_resizeNd g self szs strs).1) := by
  intro s hs
  rw [resizeNd_fst_size] at hs
  rw [List.mem_iff_getElem] at hs
  obtain ⟨n, hn, he⟩ := hs
  have hn2 : n < leadingPos szs := by
    simp only [List.length_take] at hn
    omega
  have hpos := leadingPos_getD_pos szs n hn2
  rw [List.getD_eq_getElem szs 0 (by have := leadingPos_le szs; omega)] at hpos
  rw [List.getElem_take] at he
  rw [← he]
  exact hpos

theorem sizesPos_resizeAs (g : Bool) (self src : THCTensor) (h : sizesPos self) :
    sizesPos ((THCTensor_resizeAs g self src).1) := by
  unfold THCTensor_resizeAs
  split
  · exact h
  · exact sizesPos_resizeNd g self src.size none

theorem sizesPos_setStorageNd (g : Bool) (fid : Nat) (self : THCTensor)
    (storage : Option Storage) (off : Int) (szs : List Int)
    (strs : Option (List Int)) (h : sizesPos self) :
    sizesPos ((THCTensor_setStorageNd g fid self storage off szs strs).1) := by
  simp only [THCTensor_setStorageNd]
  split
  · dsimp only
    split
    · exact h
    · split
      · exact h
      · split
        · exact h
        · exact h
  · exact sizesPos_resizeNd g _ szs strs

theorem sizesPos_set (g : Bool) (fid : Nat) (self src : THCTensor)
    (h : sizesPos self) : sizesPos ((THCTensor_set g fid self src).1) := by
  unfold THCTensor_set
  split
  · exact h
  · exact sizesPos_setStorageNd g fid self src.storage src.storageOffset
      src.size (some src.stride) h

theorem set_ok_size (g : Bool) (fid : Nat) (self src : THCTensor)
    (hid : ¬ self.id = src.id)
    (h : (THCTensor_set g fid self src).2 = none) :
    ((THCTensor_set g fid self src).1).size
      = src.size.take (leadingPos src.size) := by
  simp only [THCTensor_set, if_neg hid] at *
  simp only [THCTensor_setStorageNd] at *
  by_cases hoff2 : src.storageOffset < 0
  · rw [if_pos hoff2] at h
    simp at h
  · rw [if_neg hoff2]
    rw [resizeNd_fst_size]

theorem sizesPos_squeeze1d (g : Bool) (fid : Nat) (V : THCTensor)
    (srcOpt : Option THCTensor) (dim : Nat) (h : sizesPos V) :
    sizesPos ((THCTensor_squeeze1d g fid V srcOpt dim).1) := by
  simp only [THCTensor_squeeze1d]
  split
  · exact h
  · split
    · rename_i self1 e heq
      have hall := sizesPos_set g fid V (srcOpt.getD V) h
      rw [heq] at hall
      exact hall
    · rename_i self1 heq
      have hs1 : sizesPos self1 := by
        have hall := sizesPos_set g fid V (srcOpt.getD V) h
        rw [heq] at hall
        exact hall
      split
      · intro s hs
        simp only [List.mem_map, List.mem_range] at hs
        obtain ⟨d, hd, he⟩ := hs
        by_cases hc : dim ≤ d
        · rw [if_pos hc] at he
          have hpos : 0 < self1.size.getD (d + 1) 0 := by
            rw [List.getD_eq_getElem self1.size 0 (by omega)]
            exact hs1 _ (List.getElem_mem _)
          omega
        · rw [if_neg hc] at he
          have hpos : 0 < self1.size.getD d 0 := by
            rw [List.getD_eq_getElem self1.size 0 (by omega)]
            exact hs1 _ (List.getElem_mem _)
          omega
      · exact hs1

theorem sizesPos_unsqueeze1d (g : Bool) (fid : Nat) (V : THCTensor)
    (srcOpt : Option THCTensor) (dim : Nat) (h : sizesPos V)
    (hsrc : sizesPos (srcOpt.getD V))
    (hcoh : (srcOpt.getD V).id = V.id → srcOpt.getD V = V) :
    sizesPos ((THCTensor_unsqueeze1d g fid V srcOpt dim).1) := by
  simp only [THCTensor_unsqueeze1d]
  split
  · exact h
  · rename_i hdim
    split
    · exact h
    · rename_i hrank
      split
      · rename_i self1 e heq
        have hall := sizesPos_set g fid V (srcOpt.getD V) h
        rw [heq] at hall
        exact hall
      · rename_i self1 heq
        have hs1 : sizesPos self1 := by
          have hall := sizesPos_set g fid V (srcOpt.getD V) h
          rw [heq] at hall
          exact hall
        have hlen : self1.size.length = (srcOpt.getD V).size.length := by
          by_cases hid : V.id = (srcOpt.getD V).id
          · have hsrcV : srcOpt.getD V = V := hcoh (by rw [hid])
            have hset : THCTensor_set g fid V (srcOpt.getD V) = (V, none) := by
              simp [THCTensor_set, hid]
            rw [hset] at heq
            have : V = self1 := congrArg Prod.fst heq
            rw [← this, hsrcV]
          · have h2 : (THCTensor_set g fid V (srcOpt.getD V)).2 = none := by
              rw [heq]
            have h1 := set_ok_size g fid V (srcOpt.getD V) hid h2
            rw [heq] at h1
            dsimp only at h1
            rw [h1, leadingPos_eq_length _ hsrc, List.take_length]
        intro s hs
        rw [List.mem_iff_getElem] at hs
        obtain ⟨n, hn, he⟩ := hs
        have hn2 : n < self1.size.length + 1 := by
          simp only [List.length_set, List.length_map, List.length_range] at hn
          omega
        rw [List.getElem_set] at he
        by_cases hnd : dim = n
        · rw [if_pos hnd] at he
          omega
        · rw [if_neg hnd] at he
          simp only [List.getElem_map, List.getElem_range] at he
          by_cases hc : dim < n
          · rw [if_pos hc] at he
            have hpos : 0 < self1.size.getD (n - 1) 0 := by
              rw [List.getD_eq_getElem self1.size 0 (by omega)]
              exact hs1 _ (List.getElem_mem _)
            omega
          · rw [if_neg hc] at he
            have hnlt : n < dim := by omega
            have hdim2 : dim ≤ (srcOpt.getD V).size.length := by
              by_contra hcon
              exact hdim (by omega)
            have hpos : 0 < self1.size.getD n 0 := by
              rw [List.getD_eq_getElem self1.size 0 (by omega)]
              exact hs1 _ (List.getElem_mem _)
            omega

theorem nElement_pos_of_sizesPos (V : THCTensor) (h : sizesPos V) :
    (THCTensor_nElement V = 0 ↔ V.size.length = 0) := by
  unfold THCTensor_nElement
  by_cases h0 : V.size.length = 0
  · simp [h0]
  · rw [if_neg h0]
    constructor
    · intro hz
      have hfold : V.size.foldl (fun acc s => acc * s) 1 = V.size.prod := by
        rw [List.prod_eq_foldl]
      rw [hfold, List.prod_eq_zero_iff] at hz
      have := h 0 hz
      omega
    · intro hz
      exact absurd hz h0

/-- C10: every shape-mutating operation of the engine (resizeNd, resizeAs,
the storage rebind, assign, squeezeAxis, unsqueezeAxis) preserves the
invariant that all stored size entries are strictly positive (resizeNd even
establishes it unconditionally), and under this invariant elementCount is
zero exactly when the dimensionality is zero, so the zero-size-entry case of
elementCount is unreachable for views built through these operations.  For
the two operations taking an optional second source view, the source is also
required to satisfy the invariant and to be the view itself whenever it has
the same record identity, which is how distinct records behave in the
pointer-based source. -/
theorem shape_ops_preserve_sizesPos :
    (∀ (g : Bool) (V : THCTensor) (szs : List Int) (strs : Option (List Int)),
      sizesPos ((THCTensor_resizeNd g V szs strs).1)) ∧
    (∀ (g : Bool) (V src : THCTensor), sizesPos V →
      sizesPos ((THCTensor_resizeAs g V src).1)) ∧
    (∀ (g : Bool) (fid : Nat) (V : THCTensor) (stor : Option Storage) (off : Int)
      (szs : List Int) (strs : Option (List Int)), sizesPos V →
      sizesPos ((THCTensor_setStorageNd g fid V stor off szs strs).1)) ∧
    (∀ (g : Bool) (fid : Nat) (V src : THCTensor), sizesPos V →
      sizesPos ((THCTensor_set g fid V src).1)) ∧
    (∀ (g : Bool) (fid : Nat) (V : THCTensor) (srcOpt : Option THCTensor)
      (dim : Nat), sizesPos V →
      sizesPos ((THCTensor_squeeze1d g fid V srcOpt dim).1)) ∧
    (∀ (g : Bool) (fid : Nat) (V : THCTensor) (srcOpt : Option THCTensor)
      (dim : Nat), sizesPos V → sizesPos (srcOpt.getD V) →
      ((srcOpt.getD V).id = V.id → srcOpt.getD V = V) →
      sizesPos ((THCTensor_unsqueeze1d g fid V srcOpt dim).1)) ∧
    (∀ V : THCTensor, sizesPos V →
      (THCTensor_nElement V = 0 ↔ V.size.length = 0)) :=
  ⟨sizesPos_resizeNd, sizesPos_resizeAs, sizesPos_setStorageNd, sizesPos_set,
    sizesPos_squeeze1d, sizesPos_unsqueeze1d, nElement_pos_of_sizesPos⟩

/-- C10 witness: the invariant holds concretely before and after a resizeAs,
through the theorem at a concrete input. -/
theorem shape_ops_preserve_sizesPos_witness :
    sizesPos exSmall ∧ sizesPos ((THCTensor_resizeAs true exSmall exSrc).1) :=
  ⟨by decide, shape_ops_preserve_sizesPos.2.1 true exSmall exSrc (by decide)⟩
